import Mathlib

/-!
Shallow embedding of the `mbeacom/aws-cdk` app-delivery pipeline sources:

* `packages/@aws-cdk/app-delivery/lib/pipeline.ts` — the `Pipeline` construct;
* the `DeployAction` class (`lib/deploy.ts`, shipped inside
  `packages/@aws-cdk/aws-stepfunctions-tasks/rosetta/with-batch-job.ts-fixture`).

JavaScript string primitives used by the sources (`startsWith`, `substr`,
`split`, `join`, truthiness of `||` and of the conditional operator) are
translated by executable helpers over `List Char` so that concrete instances
evaluate inside the kernel.
-/

/-- JS `a || b` on an optional string: `undefined` and the empty string are
falsy, any other string is returned unchanged. -/
def jsOrStr (v : Option String) (d : String) : String :=
  match v with
  | none => d
  | some s => if s = "" then d else s

/-- JS `s.startsWith(p)`. -/
def jsStartsWith (s p : String) : Bool :=
  p.toList.isPrefixOf s.toList

/-- JS `s.substr(n)`: the suffix of `s` from character index `n`. -/
def jsSubstrFrom (s : String) (n : Nat) : String :=
  String.mk (s.toList.drop n)

/-- JS `s.split(sep)` on character lists: splits at every occurrence of the
separator; the empty input yields one empty segment, as in JavaScript. -/
def jsSplitChars (sep : Char) : List Char → List (List Char)
  | [] => [[]]
  | c :: cs =>
    match jsSplitChars sep cs with
    | [] => [[c]]
    | h :: t => if c = sep then [] :: h :: t else (c :: h) :: t

/-- JS `s.split(sep)` for a single-character separator. -/
def jsSplit (s : String) (sep : Char) : List String :=
  (jsSplitChars sep s.toList).map String.mk

/-- Whether `pat` occurs as a contiguous substring of `s` (character-level). -/
def segContains (pat : List Char) : List Char → Bool
  | [] => pat.isEmpty
  | c :: cs => pat.isPrefixOf (c :: cs) || segContains pat cs

/-- Whether the string `pat` occurs as a contiguous substring of `s`. -/
def strContains (s pat : String) : Bool :=
  segContains pat.toList s.toList

/-- `iam.PolicyStatement`: the builder-style fragment used by `DeployAction`. -/
structure PolicyStatement where
  actions : List String
  resources : List String
deriving Repr, DecidableEq

/-- `new iam.PolicyStatement()`. -/
def PolicyStatement.empty : PolicyStatement :=
  { actions := [], resources := [] }

/-- `PolicyStatement#addAllResources`. -/
def PolicyStatement.addAllResources (s : PolicyStatement) : PolicyStatement :=
  { s with resources := s.resources ++ ["*"] }

/-- `PolicyStatement#addAction`. -/
def PolicyStatement.addAction (s : PolicyStatement) (a : String) : PolicyStatement :=
  { s with actions := s.actions ++ [a] }

/-- The `codebuild.PipelineProject` created by `DeployAction.bind`: a fixed
build image, an install phase, a build phase, and the statements added to the
execution role. -/
structure Project where
  buildImage : String
  installCommands : List String
  buildCommands : List String
  policyStatements : List PolicyStatement
deriving Repr, DecidableEq

/-- `Project#addToRolePolicy`: appends a statement to the execution role. -/
def Project.addToRolePolicy (p : Project) (s : PolicyStatement) : Project :=
  { p with policyStatements := p.policyStatements ++ [s] }

/-- The `codebuild.PipelineBuildAction` wrapping the deploy project; the
project itself is referenced by its construct id. -/
structure PipelineBuildAction where
  actionName : String
  inputArtifact : String
  projectId : String
deriving Repr, DecidableEq

/-- `DeployActionProps` (deploy.ts): artifacts are represented by their
names. -/
structure DeployActionProps where
  «stacks» : Option (List String)
  exclusively : Option Bool
  admin : Bool
  version : Option String
  assembly : String
deriving Repr, DecidableEq

/-- The `DeployAction` object state: the declarative configuration captured by
the constructor plus the two nullable fields (`_project`, `_buildAction`)
populated by `bind`. -/
structure DeployAction where
  category : String
  provider : String
  actionName : String
  «stacks» : String
  admin : Bool
  toolchainVersion : String
  assembly : String
  exclusively : Bool
  inputArtifacts : List String
  projectOpt : Option Project
  buildActionOpt : Option PipelineBuildAction
deriving Repr, DecidableEq

/-- The `DeployAction` constructor:
`stacks` is `props.stacks ? props.stacks.join(' ') : ''`;
`actionName` is `(props.stacks || ['all']).join('-')`;
`exclusively` is `props.exclusively === undefined ? false : true` (note: any
defined value, including an explicit `false`, yields `true`);
`toolchainVersion` is `props.version || 'latest'`. -/
def DeployAction.construct (props : DeployActionProps) : DeployAction :=
  let stacksStr := match props.stacks with
    | some l => String.intercalate " " l
    | none => ""
  { category := "Build"
    provider := "CodeBuild"
    actionName := String.intercalate "-" (props.stacks.getD ["all"])
    «stacks» := stacksStr
    admin := props.admin
    toolchainVersion := jsOrStr props.version "latest"
    assembly := props.assembly
    exclusively := props.exclusively.isSome
    inputArtifacts := []
    projectOpt := none
    buildActionOpt := none }

/-- The private `buildAction` getter: throws `Action not bound to pipeline`
while `_buildAction` is unset. -/
def DeployAction.buildAction (a : DeployAction) : Except String PipelineBuildAction :=
  match a.buildActionOpt with
  | none => Except.error "Action not bound to pipeline"
  | some b => Except.ok b

/-- The public `project` getter: throws `Action not bound to pipeline` while
`_project` is unset. -/
def DeployAction.project (a : DeployAction) : Except String Project :=
  match a.projectOpt with
  | none => Except.error "Action not bound to pipeline"
  | some p => Except.ok p

/-- The dynamic `configuration` property installed by the constructor: it
proxies through the private `buildAction` getter (`this.buildAction.configuration`),
so it fails exactly when the action is unbound; the bound action stands for its
externally-defined configuration value. -/
def DeployAction.configuration (a : DeployAction) : Except String PipelineBuildAction :=
  a.buildAction

/-- `DeployAction#addToRolePolicy`: proxies through the `project` getter, so it
fails while unbound; otherwise appends the statement to the execution role. -/
def DeployAction.addToRolePolicy (a : DeployAction) (s : PolicyStatement) :
    Except String DeployAction :=
  match a.projectOpt with
  | none => Except.error "Action not bound to pipeline"
  | some p => Except.ok { a with projectOpt := some (p.addToRolePolicy s) }

/-- `DeployAction#bind`: creates the `PipelineProject` with the fixed build
image and the two-phase command script, registers the assembly input artifact,
stores the project and the wrapping `PipelineBuildAction`, and, when the admin
flag is set, appends the all-actions/all-resources statement via
`this.addToRolePolicy`. The stage/scope arguments only feed external resource
creation and are dropped. -/
def DeployAction.bind (a : DeployAction) : DeployAction :=
  let exclusively := if a.exclusively then "--exclusively" else ""
  let project : Project :=
    { buildImage := "UBUNTU_14_04_NODEJS_10_1_0"
      installCommands := ["npx npm@latest ci"]
      buildCommands :=
        ["npx --package aws-cdk@" ++ a.toolchainVersion ++ " -- cdk deploy " ++
          exclusively ++ " --require-approval=never " ++ a.stacks]
      policyStatements := [] }
  let a1 := { a with inputArtifacts := a.inputArtifacts ++ [a.assembly] }
  let a2 := { a1 with
    projectOpt := some project
    buildActionOpt := some
      { actionName := a1.actionName
        inputArtifact := a1.assembly
        projectId := "DeployStackProject" } }
  if a2.admin then
    match a2.addToRolePolicy ((PolicyStatement.empty.addAllResources).addAction "*") with
    | Except.ok a3 => a3
    | Except.error _ => a2
  else a2

/-- Reading the `project` getter: JS getters do not mutate the object, so a
read returns the value together with the unchanged state. -/
def DeployAction.readProject (a : DeployAction) :
    Except String Project × DeployAction :=
  (a.project, a)

/-- Reading the private `buildAction` getter, likewise non-mutating. -/
def DeployAction.readBuildAction (a : DeployAction) :
    Except String PipelineBuildAction × DeployAction :=
  (a.buildAction, a)

/-- The `codepipeline.GitHubSourceAction` descriptor created by the pipeline:
JS array destructuring of `source.split('/')` can leave `repo` undefined, so
it is optional here. -/
structure GitHubSourceAction where
  actionName : String
  owner : String
  repo : Option String
  outputArtifactName : String
  branch : Option String
deriving Repr, DecidableEq

/-- `GitHubSourceAction#outputArtifact`, identified by its name. -/
def GitHubSourceAction.outputArtifact (a : GitHubSourceAction) : String :=
  a.outputArtifactName

/-- Modelled from the spec: `BuildAction` (app-delivery/lib/build.ts) is not
under src; per the spec the build stage action consumes the Source artifact
and produces a build output artifact, parameterized by working directory,
install and build commands and toolchain version. -/
structure BuildActionModel where
  sourceArtifact : String
  workdir : Option String
  build : Option String
  install : Option String
  version : Option String
  outputArtifact : String
deriving Repr, DecidableEq

/-- Modelled from the spec: constructing the build action for the Build stage;
its output artifact is a fresh named handle. -/
def BuildActionModel.construct (sourceArtifact : String)
    (workdir build install version : Option String) : BuildActionModel :=
  { sourceArtifact := sourceArtifact
    workdir := workdir
    build := build
    install := install
    version := version
    outputArtifact := "BuildOutput" }

/-- The `s3.Bucket` created for the Publish stage; its physical name is
generated by the external platform and is represented by a symbolic token. -/
structure Bucket where
  versioned : Bool
  bucketName : String
deriving Repr, DecidableEq

/-- The symbolic token standing for the platform-generated bucket name. -/
def bucketNameToken : String := "Token[Publish.BucketName]"

/-- The `s3.PipelineDeployAction` of the Publish stage. -/
structure S3PipelineDeployAction where
  inputArtifact : String
  actionName : String
  bucketId : String
  objectKey : String
  extract : Bool
deriving Repr, DecidableEq

/-- One action descriptor inside a pipeline stage. -/
inductive ActionDesc where
  | sourceA (a : GitHubSourceAction)
  | buildA (a : BuildActionModel)
  | deployA (a : DeployAction)
  | publishA (a : S3PipelineDeployAction)
deriving Repr, DecidableEq

/-- A `codepipeline` stage: a name plus its ordered actions. -/
structure StageDesc where
  name : String
  actions : List ActionDesc
deriving Repr, DecidableEq

/-- A `CfnOutput`: an exported value keyed by an export name (`export` is a
Lean keyword, hence `exportName`). -/
structure CfnOutput where
  value : String
  exportName : String
deriving Repr, DecidableEq

/-- `PipelineProps` (pipeline.ts). -/
structure PipelineProps where
  oauthSecret : String
  source : String
  branch : Option String
  workdir : Option String
  «stacks» : Option (List String)
  environment : Option String
  install : Option String
  build : Option String
  exclusively : Option Bool
  admin : Option Bool
  version : Option String
deriving Repr, DecidableEq

/-- Everything the `Pipeline` constructor builds on the success path. -/
structure PipelineResult where
  sourceAction : GitHubSourceAction
  buildAction : BuildActionModel
  publishBucket : Bucket
  objectKey : String
  publishAction : S3PipelineDeployAction
  deployAction : DeployAction
  stages : List StageDesc
  outputs : List CfnOutput
deriving Repr, DecidableEq

/-- The `Pipeline` constructor (pipeline.ts). The first component is the
ordered trace of child resource descriptors created (by construct id): on the
invalid-URL path the constructor throws before creating anything, so the trace
is empty. `substr`/`split` follow the JS semantics; `version` is
`props.version || 'latest'`; the deploy action is constructed with
`admin: true` regardless of `props.admin`. -/
def Pipeline.construct (id : String) (props : PipelineProps) :
    List String × Except String PipelineResult :=
  if jsStartsWith props.source "https://github.com/" then
    let source := jsSubstrFrom props.source 19
    let parts := jsSplit source '/'
    let owner := parts.headD ""
    let repo := parts[1]?
    let version := jsOrStr props.version "latest"
    let sourceAction : GitHubSourceAction :=
      { actionName := "Pull"
        owner := owner
        repo := repo
        outputArtifactName := "Source"
        branch := props.branch }
    let buildAction := BuildActionModel.construct sourceAction.outputArtifact
      props.workdir props.build props.install props.version
    let publishBucket : Bucket := { versioned := true, bucketName := bucketNameToken }
    let objectKey := "cloud-assembly.zip"
    let publishAction : S3PipelineDeployAction :=
      { inputArtifact := buildAction.outputArtifact
        actionName := "Publish"
        bucketId := "Publish"
        objectKey := objectKey
        extract := false }
    let deployAction := DeployAction.construct
      { admin := true
        assembly := buildAction.outputArtifact
        «stacks» := props.stacks
        version := props.version
        exclusively := props.exclusively }
    let stages : List StageDesc :=
      [ { name := "Source", actions := [ActionDesc.sourceA sourceAction] }
      , { name := "Build", actions := [ActionDesc.buildA buildAction] }
      , { name := "Deploy", actions := [ActionDesc.deployA deployAction] }
      , { name := "Publish", actions := [ActionDesc.publishA publishAction] } ]
    let exportPfx := "cdk-pipeline:" ++ id
    let outputs : List CfnOutput :=
      [ { value := publishBucket.bucketName, exportName := exportPfx ++ "-bucket" }
      , { value := objectKey, exportName := exportPfx ++ "-object-key" }
      , { value := version, exportName := exportPfx ++ "-toolchain-version" } ]
    ( [ "OauthTokenSecret", "BuildDeploy", "Publish", "Bootstrap"
      , "PublishBucketName", "PublishObjectKey", "ToolchainVersion" ]
    , Except.ok
        { sourceAction := sourceAction
          buildAction := buildAction
          publishBucket := publishBucket
          objectKey := objectKey
          publishAction := publishAction
          deployAction := deployAction
          stages := stages
          outputs := outputs } )
  else
    ([], Except.error "\"source\" must start with https://github.com/")

/-! Helper lemmas about the JS split helper, used for the owner/repo
resolution theorems. -/

theorem jsSplitChars_ne_nil (sep : Char) (l : List Char) : jsSplitChars sep l ≠ [] := by
  cases l with
  | nil => simp [jsSplitChars]
  | cons c cs =>
    simp only [jsSplitChars]
    rcases hs : jsSplitChars sep cs with _ | ⟨x, xs⟩
    · simp
    · by_cases hc : c = sep <;> simp [hc]

theorem jsSplitChars_headD (sep : Char) (l : List Char) :
    (jsSplitChars sep l).headD [] = l.takeWhile (fun c => c != sep) := by
  induction l with
  | nil => simp [jsSplitChars]
  | cons c cs ih =>
    simp only [jsSplitChars, List.takeWhile]
    rcases hs : jsSplitChars sep cs with _ | ⟨x, xs⟩
    · exact absurd hs (jsSplitChars_ne_nil sep cs)
    · rw [hs] at ih
      simp only [List.headD] at ih
      by_cases hc : c = sep
      · simp [hc]
      · have hbc : (c != sep) = true := by simp [hc]
        simp [hc, hbc, ih]

theorem jsSplitChars_append (sep : Char) (o rest : List Char)
    (ho : ∀ c ∈ o, c ≠ sep) :
    jsSplitChars sep (o ++ sep :: rest) = o :: jsSplitChars sep rest := by
  induction o with
  | nil =>
    simp only [List.nil_append, jsSplitChars]
    rcases hs : jsSplitChars sep rest with _ | ⟨x, xs⟩
    · exact absurd hs (jsSplitChars_ne_nil sep rest)
    · simp
  | cons c o ih =>
    have hc : c ≠ sep := ho c (by simp)
    have ih2 := ih (fun d hd => ho d (by simp [hd]))
    simp only [List.cons_append, jsSplitChars, List.append_eq]
    rw [ih2]
    simp [hc]

theorem toList_append (a b : String) : (a ++ b).toList = a.toList ++ b.toList := by
  simp [String.toList]

deriving instance DecidableEq for Except

/-! The claims. -/

/-- Claim C1: the spec says the generated deploy command contains
`--exclusively` iff the caller set the exclusively flag to true, and that an
explicitly false flag leaves the token absent. The constructor computes
`props.exclusively === undefined ? false : true`, so an explicit `false` is
coerced to `true`: at the concrete failing input below (exclusively set to
`false`), the bound project's deploy command still contains `--exclusively`,
contradicting the claim and the field's own documentation. -/
theorem deploy_exclusively_explicit_false_yields_token :
    ((DeployAction.construct
        { «stacks» := none, exclusively := some false, admin := false,
          version := none, assembly := "CloudAssembly" }).bind).project.map
      Project.buildCommands
      = Except.ok
          ["npx --package aws-cdk@latest -- cdk deploy --exclusively --require-approval=never "] ∧
    strContains
      "npx --package aws-cdk@latest -- cdk deploy --exclusively --require-approval=never "
      "--exclusively" = true :=
  ⟨by decide, by decide⟩

/-- Claim C2: for every source URL that does not start with
`https://github.com/`, the Pipeline constructor raises the configuration error
synchronously and the trace of created resource descriptors is empty — no
resource descriptor is created before the failure. -/
theorem pipeline_invalid_source_fails_without_side_effects
    (id : String) (props : PipelineProps)
    (h : jsStartsWith props.source "https://github.com/" = false) :
    Pipeline.construct id props
      = ([], Except.error "\"source\" must start with https://github.com/") := by
  simp [Pipeline.construct, h]

/-- Witness for C2 at a concrete non-GitHub URL. -/
theorem pipeline_invalid_source_fails_without_side_effects_witness :
    jsStartsWith "http://example.com/acme/widgets" "https://github.com/" = false ∧
    Pipeline.construct "pipe"
      { oauthSecret := "arn", source := "http://example.com/acme/widgets", branch := none,
        workdir := none, «stacks» := none, environment := none, install := none,
        build := none, exclusively := none, admin := none, version := none }
      = ([], Except.error "\"source\" must start with https://github.com/") :=
  ⟨by decide, pipeline_invalid_source_fails_without_side_effects "pipe" _ (by decide)⟩

/-- Counterexample for claim C3: the claim states the repository name is the
entire part after the first `/` of the remainder. For the source URL
`https://github.com/acme/widgets/extra` the code resolves the repository to
`widgets` (JS `split('/')` splits at every slash and destructuring takes the
second piece), not to `widgets/extra` as the claim requires. -/
theorem github_repo_not_entire_remainder_counterexample :
    (Pipeline.construct "pipe"
      { oauthSecret := "arn", source := "https://github.com/acme/widgets/extra", branch := none,
        workdir := none, «stacks» := none, environment := none, install := none,
        build := none, exclusively := none, admin := none, version := none }).2.map
      (fun r => r.sourceAction.repo) = Except.ok (some "widgets") ∧
    ¬ ((Pipeline.construct "pipe"
      { oauthSecret := "arn", source := "https://github.com/acme/widgets/extra", branch := none,
        workdir := none, «stacks» := none, environment := none, install := none,
        build := none, exclusively := none, admin := none, version := none }).2.map
      (fun r => r.sourceAction.repo) = Except.ok (some "widgets/extra")) :=
  ⟨by decide, by decide⟩

/-- Claim C3 as amended: for every source URL of the shape
`https://github.com/<owner>/<rest>` with a slash-free owner, the Source
Resolver strips the prefix and splits the remainder at every `/`; the owner is
the part before the first `/` and the repository name is the part of the
remainder up to (not including) the next `/` — the whole remainder only when
it contains no further slash. -/
theorem github_owner_repo_resolution (id o r : String) (props : PipelineProps)
    (ho : o.toList.all (fun c => c != '/') = true)
    (hs : props.source = (("https://github.com/" ++ o) ++ "/") ++ r) :
    (Pipeline.construct id props).2.map
      (fun res => (res.sourceAction.owner, res.sourceAction.repo))
      = Except.ok (o, some (String.mk (r.toList.takeWhile (fun c => c != '/')))) := by
  have hlist : props.source.toList
      = "https://github.com/".toList ++ (o.toList ++ '/' :: r.toList) := by
    rw [hs]
    simp [toList_append]
  have hstart : jsStartsWith props.source "https://github.com/" = true := by
    unfold jsStartsWith
    rw [hlist]
    exact List.isPrefixOf_iff_prefix.mpr (List.prefix_append _ _)
  have hne : ∀ c ∈ o.toList, c ≠ '/' := by
    intro c hc
    have := List.all_eq_true.mp ho c hc
    simpa using this
  have hdrop : (jsSubstrFrom props.source 19).toList = o.toList ++ '/' :: r.toList := by
    show props.source.toList.drop 19 = _
    rw [hlist]
    rw [show (19 : Nat) = "https://github.com/".toList.length by decide]
    exact List.drop_left _ _
  obtain ⟨x, xs, hx⟩ : ∃ x xs, jsSplitChars '/' r.toList = x :: xs := by
    rcases hr : jsSplitChars '/' r.toList with _ | ⟨x, xs⟩
    · exact absurd hr (jsSplitChars_ne_nil _ _)
    · exact ⟨x, xs, rfl⟩
  have hxhead : x = r.toList.takeWhile (fun c => c != '/') := by
    have := jsSplitChars_headD '/' r.toList
    rw [hx] at this
    simpa using this
  have hsplit : jsSplit (jsSubstrFrom props.source 19) '/'
      = o :: String.mk x :: xs.map String.mk := by
    unfold jsSplit
    rw [hdrop, jsSplitChars_append '/' o.toList r.toList hne, hx]
    simp
  simp [Pipeline.construct, hstart, hsplit, hxhead, Except.map]

/-- Witness for the amended C3 at the spec's own example
`https://github.com/acme/widgets`: owner `acme`, repository `widgets`. -/
theorem github_owner_repo_resolution_witness :
    ("acme".toList.all (fun c => c != '/') = true) ∧
    (Pipeline.construct "pipe"
      { oauthSecret := "arn", source := "https://github.com/acme/widgets", branch := none,
        workdir := none, «stacks» := none, environment := none, install := none,
        build := none, exclusively := none, admin := none, version := none }).2.map
      (fun res => (res.sourceAction.owner, res.sourceAction.repo))
      = Except.ok ("acme", some "widgets") :=
  ⟨by decide,
    (github_owner_repo_resolution "pipe" "acme" "widgets" _ (by decide) (by decide)).trans
      (by decide)⟩

/-- Claim C4: for every DeployAction, reading the project, the bound action or
the configuration, or calling addToRolePolicy before `bind`, yields the
`Action not bound to pipeline` error; after one `bind` call the project and
bound action are readable, reads do not mutate the action, and a repeated read
returns the same value. -/
theorem deploy_action_binding_lifecycle (props : DeployActionProps) (s : PolicyStatement) :
    (DeployAction.construct props).project = Except.error "Action not bound to pipeline" ∧
    (DeployAction.construct props).buildAction = Except.error "Action not bound to pipeline" ∧
    (DeployAction.construct props).configuration = Except.error "Action not bound to pipeline" ∧
    (DeployAction.construct props).addToRolePolicy s
      = Except.error "Action not bound to pipeline" ∧
    (∃ p, ((DeployAction.construct props).bind).readProject.1 = Except.ok p ∧
      (((DeployAction.construct props).bind).readProject.2).readProject.1 = Except.ok p) ∧
    (∃ b, ((DeployAction.construct props).bind).readBuildAction.1 = Except.ok b ∧
      (((DeployAction.construct props).bind).readBuildAction.2).readBuildAction.1
        = Except.ok b) := by
  rcases props with ⟨ps, pe, pa, pv, pas⟩
  refine ⟨rfl, rfl, rfl, rfl, ?_, ?_⟩ <;>
    cases pa <;> exact ⟨_, rfl, rfl⟩

/-- Claim C5: for every PipelineConfig with a valid source URL, the assembled
pipeline has exactly four stages in the order Source, Build, Deploy, Publish,
each holding exactly one action. -/
theorem pipeline_four_stages_single_action (id : String) (props : PipelineProps)
    (h : jsStartsWith props.source "https://github.com/" = true) :
    (Pipeline.construct id props).2.map
      (fun r => r.stages.map (fun st => (st.name, st.actions.length)))
      = Except.ok [("Source", 1), ("Build", 1), ("Deploy", 1), ("Publish", 1)] := by
  simp [Pipeline.construct, h, Except.map]

/-- Witness for C5 at a concrete valid configuration. -/
theorem pipeline_four_stages_single_action_witness :
    jsStartsWith "https://github.com/acme/widgets" "https://github.com/" = true ∧
    (Pipeline.construct "pipe"
      { oauthSecret := "arn", source := "https://github.com/acme/widgets", branch := none,
        workdir := none, «stacks» := none, environment := none, install := none,
        build := none, exclusively := none, admin := none, version := none }).2.map
      (fun r => r.stages.map (fun st => (st.name, st.actions.length)))
      = Except.ok [("Source", 1), ("Build", 1), ("Deploy", 1), ("Publish", 1)] :=
  ⟨by decide, pipeline_four_stages_single_action "pipe" _ (by decide)⟩

/-- Claim C6: for every Pipeline constructed with identifier `id` and a valid
source URL, exactly three values are exported — the publish bucket's name, the
fixed object key, and the resolved toolchain version — under the export names
`cdk-pipeline:id-bucket`, `cdk-pipeline:id-object-key` and
`cdk-pipeline:id-toolchain-version`. -/
theorem pipeline_three_named_exports (id : String) (props : PipelineProps)
    (h : jsStartsWith props.source "https://github.com/" = true) :
    ∃ r, (Pipeline.construct id props).2 = Except.ok r ∧
      r.outputs =
        [ { value := r.publishBucket.bucketName
          , exportName := ("cdk-pipeline:" ++ id) ++ "-bucket" }
        , { value := r.objectKey
          , exportName := ("cdk-pipeline:" ++ id) ++ "-object-key" }
        , { value := jsOrStr props.version "latest"
          , exportName := ("cdk-pipeline:" ++ id) ++ "-toolchain-version" } ] := by
  simp [Pipeline.construct, h]

/-- Witness for C6 at a concrete valid configuration. -/
theorem pipeline_three_named_exports_witness :
    jsStartsWith "https://github.com/acme/widgets" "https://github.com/" = true ∧
    ∃ r, (Pipeline.construct "pipe"
      { oauthSecret := "arn", source := "https://github.com/acme/widgets", branch := none,
        workdir := none, «stacks» := none, environment := none, install := none,
        build := none, exclusively := none, admin := none, version := none }).2
        = Except.ok r ∧
      r.outputs =
        [ { value := r.publishBucket.bucketName
          , exportName := ("cdk-pipeline:" ++ "pipe") ++ "-bucket" }
        , { value := r.objectKey
          , exportName := ("cdk-pipeline:" ++ "pipe") ++ "-object-key" }
        , { value := jsOrStr none "latest"
          , exportName := ("cdk-pipeline:" ++ "pipe") ++ "-toolchain-version" } ] :=
  ⟨by decide, pipeline_three_named_exports "pipe" _ (by decide)⟩

/-- Claim C7: for every PipelineConfig with a valid source URL, whatever the
caller-supplied admin field, the deploy-stage DeployAction is constructed with
admin set to true. -/
theorem pipeline_deploy_admin_hardcoded_true (id : String) (props : PipelineProps)
    (h : jsStartsWith props.source "https://github.com/" = true) :
    (Pipeline.construct id props).2.map (fun r => r.deployAction.admin)
      = Except.ok true := by
  simp [Pipeline.construct, h, Except.map, DeployAction.construct]

/-- Witness for C7 with the admin option explicitly set to false. -/
theorem pipeline_deploy_admin_hardcoded_true_witness :
    jsStartsWith "https://github.com/acme/widgets" "https://github.com/" = true ∧
    (Pipeline.construct "pipe"
      { oauthSecret := "arn", source := "https://github.com/acme/widgets", branch := none,
        workdir := none, «stacks» := none, environment := none, install := none,
        build := none, exclusively := none, admin := some false, version := none }).2.map
      (fun r => r.deployAction.admin) = Except.ok true :=
  ⟨by decide, pipeline_deploy_admin_hardcoded_true "pipe" _ (by decide)⟩

/-- Claim C8: the generated deploy command lists the stack names exactly as
given, space-separated and in input order, and the stack portion is empty when
no stack list is supplied (the command template is fixed otherwise). -/
theorem deploy_command_stacks_portion (props : DeployActionProps) (l : List String) :
    (props.stacks = some l →
      ((DeployAction.construct props).bind).project.map Project.buildCommands
        = Except.ok ["npx --package aws-cdk@" ++ jsOrStr props.version "latest" ++
            " -- cdk deploy " ++
            (if props.exclusively.isSome then "--exclusively" else "") ++
            " --require-approval=never " ++ String.intercalate " " l]) ∧
    (props.stacks = none →
      ((DeployAction.construct props).bind).project.map Project.buildCommands
        = Except.ok ["npx --package aws-cdk@" ++ jsOrStr props.version "latest" ++
            " -- cdk deploy " ++
            (if props.exclusively.isSome then "--exclusively" else "") ++
            " --require-approval=never "]) := by
  rcases props with ⟨ps, pe, pa, pv, pas⟩
  constructor <;> intro h <;> simp at h <;> subst h <;> cases pa <;>
    simp [DeployAction.construct, DeployAction.bind, DeployAction.project,
      DeployAction.addToRolePolicy, Project.addToRolePolicy, Except.map]

/-- Witness for C8 with the stack list StackA, StackB (note the double space:
the exclusively slot is empty). -/
theorem deploy_command_stacks_portion_witness :
    ((DeployAction.construct
        { «stacks» := some ["StackA", "StackB"], exclusively := none, admin := false,
          version := none, assembly := "CloudAssembly" }).bind).project.map
      Project.buildCommands
      = Except.ok
          ["npx --package aws-cdk@latest -- cdk deploy  --require-approval=never StackA StackB"] :=
  ((deploy_command_stacks_portion _ ["StackA", "StackB"]).1 rfl).trans (by decide)

/-- Claim C9: when the admin flag is true, `bind` appends exactly one
all-actions/all-resources statement to the execution role; when it is false,
no statement is appended. -/
theorem deploy_bind_admin_policy_statement (props : DeployActionProps) :
    (props.admin = true →
      ((DeployAction.construct props).bind).project.map Project.policyStatements
        = Except.ok [{ actions := ["*"], resources := ["*"] }]) ∧
    (props.admin = false →
      ((DeployAction.construct props).bind).project.map Project.policyStatements
        = Except.ok []) := by
  rcases props with ⟨ps, pe, pa, pv, pas⟩
  cases pa <;> simp <;> rfl

/-- Witness for C9 with the admin flag set. -/
theorem deploy_bind_admin_policy_statement_witness :
    ((DeployAction.construct
        { «stacks» := none, exclusively := none, admin := true,
          version := none, assembly := "CloudAssembly" }).bind).project.map
      Project.policyStatements
      = Except.ok [{ actions := ["*"], resources := ["*"] }] :=
  (deploy_bind_admin_policy_statement _).1 rfl

/-- Claim C10: the action name is the stack names joined with a dash when a
stack list is supplied, the literal `all` when it is absent, and the empty
string (not `all`) for an explicitly empty stack list. -/
theorem deploy_action_name_from_stacks (props : DeployActionProps) (l : List String) :
    (props.stacks = some l →
      (DeployAction.construct props).actionName = String.intercalate "-" l) ∧
    (props.stacks = none →
      (DeployAction.construct props).actionName = "all") ∧
    (props.stacks = some [] →
      (DeployAction.construct props).actionName = "") := by
  rcases props with ⟨ps, pe, pa, pv, pas⟩
  refine ⟨?_, ?_, ?_⟩ <;> intro h <;> simp at h <;> subst h <;> rfl

/-- Witness for C10 with the stack list a, b. -/
theorem deploy_action_name_from_stacks_witness :
    (DeployAction.construct
      { «stacks» := some ["a", "b"], exclusively := none, admin := false,
        version := none, assembly := "CloudAssembly" }).actionName = "a-b" :=
  ((deploy_action_name_from_stacks _ ["a", "b"]).1 rfl).trans (by decide)
